import Mathlib

set_option linter.unusedVariables false

/-!
Verification of `osn-system-utils` (files `osn_system_utils/api/process.py` and
`osn_system_utils/api/network.py`) against its natural-language specification.

The helper module `osn_system_utils/api/_functions.py` (functions `check_regex`,
`check_equal`, `check_not_equal`, `check_above`, `check_under`, `check_between`,
`get_nested_val`) is imported by `process.py` but its source is not available;
those functions are modelled from the specification (4.1 Attribute Resolver and
4.2 Predicate Engine) and are marked as such in their doc comments.

External collaborators (psutil process iteration, socket binding, the OS socket
table) are modelled as explicit parameters: a list of per-process fetch results,
an environment of process liveness / children / termination outcomes, a
port-freeness predicate, and a list of connection records.
-/

namespace OsnSystemUtils

mutual

/-- A Python value as it appears in a psutil attribute snapshot: an integer
(numeric attributes such as `pid` or `cpu_percent`), a string (such as `name`),
`None`, or a nested mapping/object (such as `memory_info`), whose fields are
indexed by dotted attribute paths. -/
inductive Value where
  | vInt : Int → Value
  | vStr : String → Value
  | vNone : Value
  | vDict : Fields → Value
deriving DecidableEq

/-- The fields of a nested mapping/object, as an association list. -/
inductive Fields where
  | fnil : Fields
  | fcons : String → Value → Fields → Fields
deriving DecidableEq

end

/-- Dictionary lookup by key, first match wins (Python dict keys are unique). -/
def Fields.lookup : Fields → String → Option Value
  | .fnil, _ => none
  | .fcons k v rest, key => if k == key then some v else rest.lookup key

/-- Splitting a character list at every `'.'`, keeping empty segments, exactly
as Python `str.split(".")` does on the underlying characters. -/
def splitCharSegs : List Char → List (List Char)
  | [] => [[]]
  | c :: rest =>
      match splitCharSegs rest with
      | [] => [[]]
      | s :: t => if c = '.' then [] :: s :: t else (c :: s) :: t

/-- Python `path.split(".")`: the dotted path cut into its segments. -/
def splitPath (path : String) : List String :=
  (splitCharSegs path.toList).map (fun l => ⟨l⟩)

/-- Python `str.lower()`, characterwise. -/
def pyLower (s : String) : String := ⟨s.toList.map Char.toLower⟩

/-- Walk the remaining path segments down a value: indexing into a non-mapping
or a missing key yields `none` (the Absent result). -/
def resolveSegs : Value → List String → Option Value
  | v, [] => some v
  | .vDict d, seg :: rest =>
      match d.lookup seg with
      | some v => resolveSegs v rest
      | none => none
  | _, _ :: _ => none

/-- Modelled from the spec: `get_nested_val` of the missing module
`osn_system_utils/api/_functions.py`. Per 4.1 (Attribute Resolver): split the
dotted path into segments and repeatedly index into nested mappings; if any
segment is missing or the intermediate value does not support indexing the
resolution yields the Absent result (`none`), never an exception. -/
def get_nested_val (info : Fields) (path : String) : Option Value :=
  resolveSegs (.vDict info) (splitPath path)

/-- Python `str()` coercion of a value, as used by the regex predicate. The
rendering of nested mappings is abstracted (the spec only requires "coerced to
its string form"; filters are applied to scalar attributes). -/
def Value.strForm : Value → String
  | .vInt n => toString n
  | .vStr s => s
  | .vNone => "None"
  | .vDict _ => "dict"

/-- Numeric view of a value, for the ordered comparisons. Non-numeric values
have none, making the ordered predicates fail closed. -/
def Value.toNum : Value → Option Int
  | .vInt n => some n
  | _ => none

/-- A compiled regex pattern, abstracted as its `search` semantics: the
predicate holds of a string iff the pattern matches somewhere inside it. -/
abbrev Pattern := String → Bool

/-- Modelled from the spec: `check_regex` of the missing module
`_functions.py`. Per 4.2: the value, coerced to its string form, must match the
pattern with search (substring) semantics; an Absent value fails closed. -/
def check_regex (info : Fields) (attr : String) (pattern : Pattern) : Bool :=
  match get_nested_val info attr with
  | some v => pattern v.strForm
  | none => false

/-- Modelled from the spec: `check_equal` of the missing module `_functions.py`.
Per 4.2: structural equality against the target; an Absent value fails closed. -/
def check_equal (info : Fields) (attr : String) (target : Value) : Bool :=
  match get_nested_val info attr with
  | some v => v = target
  | none => false

/-- Modelled from the spec: `check_not_equal` of the missing module
`_functions.py`. Per 4.2: structural inequality; an Absent value succeeds when a
(non-Absent) target is being excluded. -/
def check_not_equal (info : Fields) (attr : String) (target : Value) : Bool :=
  match get_nested_val info attr with
  | some v => v ≠ target
  | none => true

/-- Modelled from the spec: `check_above` of the missing module `_functions.py`.
Per 4.2: strict ordered comparison `limit < value`; fails closed if the value is
Absent or not ordered against the limit. -/
def check_above (info : Fields) (attr : String) (limit : Value) : Bool :=
  match (get_nested_val info attr).bind Value.toNum, limit.toNum with
  | some v, some l => l < v
  | _, _ => false

/-- Modelled from the spec: `check_under` of the missing module `_functions.py`.
Per 4.2: strict ordered comparison `value < limit`; fails closed if the value is
Absent or not ordered against the limit. -/
def check_under (info : Fields) (attr : String) (limit : Value) : Bool :=
  match (get_nested_val info attr).bind Value.toNum, limit.toNum with
  | some v, some l => v < l
  | _, _ => false

/-- Modelled from the spec: `check_between` of the missing module
`_functions.py`. Per 4.2 and 8: strict double-sided bound `min_ < value < max_`,
both ends exclusive; fails closed if the value is Absent or not ordered. -/
def check_between (info : Fields) (attr : String) (min_ max_ : Value) : Bool :=
  match (get_nested_val info attr).bind Value.toNum, min_.toNum, max_.toNum with
  | some v, some mn, some mx => mn < v ∧ v < mx
  | _, _, _ => false

/-!
## `osn_system_utils/api/process.py`

The psutil process environment is a parameter:
* `PsEnv` gives, for one call, which PIDs resolve (`psutil.Process(pid)`
  succeeds), the result of `proc.children(recursive=True)` (`none` models the
  enumeration raising `NoSuchProcess`/`AccessDenied`), and whether
  `terminate()`/`kill()` on a PID succeeds (`false` models the call raising
  `NoSuchProcess`/`AccessDenied`, which the source swallows).
* `FetchResult` is one element of `psutil.process_iter(...)`: either the fetched
  attribute snapshot, or a per-process transient failure
  (`NoSuchProcess`/`AccessDenied`) raised while reading it.

Termination side effects are made observable by returning, next to the boolean
result, the list of `(pid, outcome)` pairs — one entry per termination attempt
issued, `outcome = true` when the signal was delivered and `false` when the
attempt raised and was swallowed.
-/

/-- The psutil environment visible to one lifecycle-controller call. -/
structure PsEnv where
  procExists : Nat → Bool
  children : Nat → Option (List Nat)
  termOk : Nat → Bool

/-- Embeds `_kill_proc_obj` (process.py lines 23-57): build the kill plan —
the root plus, when `tree` is set, its recursive children (an enumeration
failure is swallowed, leaving just the root) — then attempt termination of each
member independently, swallowing per-member failures; returns `True`. The
`force` flag selects `kill()` over `terminate()` and does not affect the
control flow. -/
def killProcObj (env : PsEnv) (pid : Nat) (force tree : Bool) : Bool × List (Nat × Bool) :=
  let procs_to_kill := pid :: (if tree then (env.children pid).getD [] else [])
  let attempts := procs_to_kill.map (fun p => (p, env.termOk p))
  (true, attempts)

/-- Embeds `kill_process_by_pid` (process.py lines 102-120): resolve the PID
(`psutil.Process(pid)`); on `NoSuchProcess` return `False` with no attempts,
otherwise delegate to `_kill_proc_obj`. -/
def kill_process_by_pid (env : PsEnv) (pid : Nat) (force tree : Bool) :
    Bool × List (Nat × Bool) :=
  if env.procExists pid then killProcObj env pid force tree else (false, [])

/-- Two successive calls of `kill_process_by_pid` on the same PID. The calls
are pure in the environment: a call on a dead PID issues no termination
attempt, so the environment seen by the second call is the same. -/
def kill_process_by_pid_twice (env : PsEnv) (pid : Nat) (force tree : Bool) :
    (Bool × List (Nat × Bool)) × (Bool × List (Nat × Bool)) :=
  (kill_process_by_pid env pid force tree, kill_process_by_pid env pid force tree)

/-- One element yielded by `psutil.process_iter(["pid", "name"])`: the PID and
reported name (`none` models a `None` name), or a transient per-process failure
raised while reading the entry. -/
inductive NameEntry where
  | ok : Nat → Option String → NameEntry
  | err : NameEntry

/-- Embeds `kill_processes_by_name` (process.py lines 60-99): lower-case the
target name unless `case_sensitive`; for each iterated process, skip transient
failures and falsy names (a `None` or empty name), match by string equality
(lower-cased on both sides when case-insensitive), and on a match collect the
PID when `_kill_proc_obj` reports success. -/
def kill_processes_by_name (env : PsEnv) (procs : List NameEntry) (name : String)
    (force tree case_sensitive : Bool) : List Nat :=
  let target_name := if case_sensitive then name else pyLower name
  procs.filterMap fun e =>
    match e with
    | .err => none
    | .ok pid pname? =>
      match pname? with
      | none => none
      | some p_name =>
        if p_name = "" then none
        else
          let is_match :=
            if case_sensitive then p_name = target_name
            else pyLower p_name = target_name
          if is_match then
            if (killProcObj env pid force tree).1 then some pid else none
          else none

/-- One element yielded by `psutil.process_iter(attrs)` for the table builder:
the attribute snapshot (`proc.info`), or a transient per-process failure
(`NoSuchProcess`/`AccessDenied`). -/
inductive FetchResult where
  | ok : Fields → FetchResult
  | err : FetchResult

/-- The compiled validator list (process.py lines 167-191): one closure per
filter entry, in source order — regex, equal, not-equal, above, under,
between. -/
def mkValidators (regex_filter : List (String × Pattern))
    (equal_filter not_equal_filter above_filter under_filter : List (String × Value))
    (between_filter : List (String × Value × Value)) : List (Fields → Bool) :=
  regex_filter.map (fun rf info => check_regex info rf.1 rf.2)
    ++ equal_filter.map (fun ef info => check_equal info ef.1 ef.2)
    ++ not_equal_filter.map (fun nf info => check_not_equal info nf.1 nf.2)
    ++ above_filter.map (fun af info => check_above info af.1 af.2)
    ++ under_filter.map (fun uf info => check_under info uf.1 uf.2)
    ++ between_filter.map (fun bf info => check_between info bf.1 bf.2.1 bf.2.2)

/-- Row projection (process.py lines 202-207): one entry per requested column,
`col_name` mapped to `get_nested_val(info, attr_path)`; an Absent resolution
yields the null marker `none`, it is never an error. -/
def rowOf (columns : List (String × String)) (info : Fields) :
    List (String × Option Value) :=
  columns.map (fun cp => (cp.1, get_nested_val info cp.2))

/-- The default column set used when the caller supplies none
(process.py line 149). -/
def default_columns : List (String × String) :=
  [("PID", "pid"), ("Name", "name"), ("Status", "status")]

/-- Embeds `get_process_table` (process.py lines 123-211): for each iterated
process, a transient per-process failure is silently skipped; otherwise the
snapshot must satisfy every compiled validator (logical AND), and a matching
snapshot is projected onto the caller's columns. The returned list of rows
models the rows of the built DataFrame, in enumeration order. -/
def get_process_table (columns : List (String × String))
    (regex_filter : List (String × Pattern))
    (equal_filter not_equal_filter above_filter under_filter : List (String × Value))
    (between_filter : List (String × Value × Value))
    (procs : List FetchResult) : List (List (String × Option Value)) :=
  let validators := mkValidators regex_filter equal_filter not_equal_filter
    above_filter under_filter between_filter
  procs.filterMap fun r =>
    match r with
    | .err => none
    | .ok info =>
      if validators.all (fun validate => validate info) then some (rowOf columns info)
      else none

/-!
## `osn_system_utils/api/network.py`

The OS socket layer is a parameter: `_is_port_free` (a bind probe) becomes a
predicate `free : Int → Bool`, and `psutil.net_connections(kind="inet")`
becomes a list of connection records carrying the local address.
-/

/-- The local-classification IP set (network.py line 186). -/
def _LOCALHOST_IPS : List String := ["127.0.0.1", "::1", "0.0.0.0", "::"]

/-- Port-range constants (network.py lines 188-189). -/
def _PORT_RANGE_START : Int := 1024

/-- Exclusive upper bound of the default port range (network.py line 189). -/
def _PORT_RANGE_END : Int := 49151

/-- The default port range `range(1024, 49151)` in ascending order, as a list.
The source stores it as a `frozenset`; the element set is what every use
depends on (set difference, and a scan whose success is order-independent). -/
def allPortsList : List Int :=
  (List.range 48127).map (fun (i : Nat) => _PORT_RANGE_START + (i : Int))

/-- The default port range as a set (`_ALL_PORTS_RANGE`, network.py
line 190). -/
def _ALL_PORTS_RANGE : Finset Int := allPortsList.toFinset

/-- One record of `psutil.net_connections(kind="inet")`: the local address
(IP and port) and the owning PID (`none` models a `None` pid). -/
structure Conn where
  ip : String
  port : Int
  pid : Option Nat

/-- Embeds `_is_localhost` (network.py lines 29-40): the local address IP is in
the localhost set. (Every modelled connection record carries a local address,
so the `hasattr` guard is always satisfied.) -/
def _is_localhost (c : Conn) : Bool := _LOCALHOST_IPS.contains c.ip

/-- The scan over the default range with its failure message
(network.py lines 148-152): return the first free port found, else raise
`RuntimeError` naming the scanned bounds. -/
def scanDefaultRange (free : Int → Bool) : Except String Int :=
  match allPortsList.find? free with
  | some p => .ok p
  | none =>
      .error ("No free ports found in range " ++ toString _PORT_RANGE_START
        ++ "-" ++ toString _PORT_RANGE_END)

/-- Python `min` over a nonempty list, written head-and-tail. -/
def pyMin (a : Int) (rest : List Int) : Int := rest.foldl min a

/-- Embeds `get_localhost_minimum_free_port` (network.py lines 117-152). The
argument is `none` (Python `None`), an `int`, or a sequence of ints. A free
single-port argument is returned directly; otherwise the sequence branch keeps
the free candidates and returns their minimum when any exist; in every
remaining case (busy single port, no free candidate, no argument) the default
range is scanned, and exhaustion raises. -/
def get_localhost_minimum_free_port (free : Int → Bool)
    (ports_to_check : Option (Int ⊕ List Int)) : Except String Int :=
  match ports_to_check with
  | some (.inl p) => if free p then .ok p else scanDefaultRange free
  | some (.inr ps) =>
      match ps.filter free with
      | [] => scanDefaultRange free
      | a :: rest => .ok (pyMin a rest)
  | none => scanDefaultRange free

/-- Embeds `get_localhost_busy_ports` (network.py lines 155-169): the set of
local ports of localhost-classified connections, returned sorted. -/
def get_localhost_busy_ports (conns : List Conn) : List Int :=
  (((conns.filter _is_localhost).map Conn.port).toFinset).sort (· ≤ ·)

/-- Embeds `get_localhost_free_ports` (network.py lines 172-183): the default
range minus the busy-port set, returned sorted. -/
def get_localhost_free_ports (conns : List Conn) : List Int :=
  (_ALL_PORTS_RANGE \ (get_localhost_busy_ports conns).toFinset).sort (· ≤ ·)

/-!
## Theorems
-/

/-- C1: for a between_filter entry mapping an attribute path to `(min, max)`,
a process snapshot passes `get_process_table`'s between predicate iff
`min < value < max` with both bounds strictly exclusive; in particular a
snapshot whose attribute value equals `min` or equals `max` does not match and
produces no row. -/
theorem between_filter_strictly_exclusive (info : Fields) (attr : String)
    (mn mx v : Int) (h : get_nested_val info attr = some (.vInt v)) :
    (check_between info attr (.vInt mn) (.vInt mx) = true ↔ (mn < v ∧ v < mx)) ∧
    (get_process_table default_columns [] [] [] [] []
        [(attr, (.vInt mn, .vInt mx))] [.ok info] ≠ [] ↔ (mn < v ∧ v < mx)) ∧
    ((v = mn ∨ v = mx) →
      get_process_table default_columns [] [] [] [] []
        [(attr, (.vInt mn, .vInt mx))] [.ok info] = []) := by
  have hcb : check_between info attr (.vInt mn) (.vInt mx) = decide (mn < v ∧ v < mx) := by
    simp [check_between, h, Value.toNum]
  have htab : get_process_table default_columns [] [] [] [] []
      [(attr, (.vInt mn, .vInt mx))] [.ok info]
      = if check_between info attr (.vInt mn) (.vInt mx) then
          [rowOf default_columns info] else [] := by
    simp only [get_process_table, mkValidators, List.map, List.append_nil,
      List.nil_append, List.all_cons, List.all_nil, Bool.and_true,
      List.filterMap]
    by_cases hc : check_between info attr (.vInt mn) (.vInt mx) <;> simp [hc]
  refine ⟨by simp [hcb], ?_, ?_⟩
  · rw [htab, hcb]
    by_cases hp : mn < v ∧ v < mx <;> simp [hp]
  · rintro (rfl | rfl) <;> simp [htab, hcb]

/-- Witness for C1 at a concrete snapshot: attribute value 5 with bounds
(1, 10) matches; the same theorem instance also certifies the boundary
clause. -/
theorem between_filter_strictly_exclusive_witness :
    (check_between (.fcons "cpu_percent" (.vInt 5) .fnil) "cpu_percent"
        (.vInt 1) (.vInt 10) = true ↔ ((1:Int) < 5 ∧ (5:Int) < 10)) ∧
    (get_process_table default_columns [] [] [] [] []
        [("cpu_percent", (.vInt 1, .vInt 10))]
        [.ok (.fcons "cpu_percent" (.vInt 5) .fnil)] ≠ []
      ↔ ((1:Int) < 5 ∧ (5:Int) < 10)) ∧
    (((5:Int) = 1 ∨ (5:Int) = 10) →
      get_process_table default_columns [] [] [] [] []
        [("cpu_percent", (.vInt 1, .vInt 10))]
        [.ok (.fcons "cpu_percent" (.vInt 5) .fnil)] = []) :=
  between_filter_strictly_exclusive (.fcons "cpu_percent" (.vInt 5) .fnil)
    "cpu_percent" 1 10 5 (by decide)

/-- C2: for a root with two children of which one already exited,
`kill_process_by_pid(root, tree=True)` returns `True` (the root handle
resolved); a termination attempt is issued to every member of the kill plan,
the failed attempt on the exited child does not prevent the attempts on the
others and does not change the result; and when descendant enumeration itself
fails, the operation proceeds with just the root and still returns `True`. -/
theorem kill_tree_partial_failure (env env2 : PsEnv) (root c1 c2 root2 : Nat)
    (force : Bool)
    (h1 : env.procExists root = true) (h2 : env.children root = some [c1, c2])
    (h3 : env.termOk c1 = false)
    (h4 : env2.procExists root2 = true) (h5 : env2.children root2 = none) :
    (kill_process_by_pid env root force true).1 = true ∧
    (kill_process_by_pid env root force true).2
      = [(root, env.termOk root), (c1, false), (c2, env.termOk c2)] ∧
    kill_process_by_pid env2 root2 force true
      = (true, [(root2, env2.termOk root2)]) := by
  refine ⟨?_, ?_, ?_⟩ <;>
    simp [kill_process_by_pid, killProcObj, h1, h2, h3, h4, h5]

/-- Witness for C2: root 1 with children 2 and 3, child 2 already exited, every
member of the plan receives an attempt and the call returns `True`; a second
environment whose child enumeration fails still terminates just root 7. -/
theorem kill_tree_partial_failure_witness :
    (kill_process_by_pid
        (PsEnv.mk (fun _ => true) (fun _ => some [2, 3]) (fun p => decide (p ≠ 2)))
        1 false true).1 = true ∧
    (kill_process_by_pid
        (PsEnv.mk (fun _ => true) (fun _ => some [2, 3]) (fun p => decide (p ≠ 2)))
        1 false true).2 = [(1, true), (2, false), (3, true)] ∧
    kill_process_by_pid (PsEnv.mk (fun _ => true) (fun _ => none) (fun _ => true))
        7 false true = (true, [(7, true)]) :=
  kill_tree_partial_failure
    (PsEnv.mk (fun _ => true) (fun _ => some [2, 3]) (fun p => decide (p ≠ 2)))
    (PsEnv.mk (fun _ => true) (fun _ => none) (fun _ => true))
    1 2 3 7 false rfl rfl rfl rfl rfl

/-- Whether a `process_iter` element yielded a snapshot (no transient
failure). -/
def isOkFetch : FetchResult → Bool
  | .ok _ => true
  | .err => false

/-- C3: `get_process_table` is a total function of the fetch results — a
per-process transient failure never aborts it — and the failed handles are
invisible in the output: an errored element contributes no row, and the whole
table equals the table of just the successfully fetched handles, with no
query-level error reported. -/
theorem table_skips_transient_failures (columns : List (String × String))
    (regex_filter : List (String × Pattern))
    (equal_filter not_equal_filter above_filter under_filter : List (String × Value))
    (between_filter : List (String × Value × Value)) (procs : List FetchResult) :
    (get_process_table columns regex_filter equal_filter not_equal_filter
        above_filter under_filter between_filter (.err :: procs)
      = get_process_table columns regex_filter equal_filter not_equal_filter
        above_filter under_filter between_filter procs) ∧
    (get_process_table columns regex_filter equal_filter not_equal_filter
        above_filter under_filter between_filter procs
      = get_process_table columns regex_filter equal_filter not_equal_filter
        above_filter under_filter between_filter (procs.filter isOkFetch)) := by
  refine ⟨rfl, ?_⟩
  induction procs with
  | nil => rfl
  | cons head tail ih =>
      cases head with
      | ok info =>
          simp only [get_process_table, List.filter, isOkFetch, List.filterMap]
          simp only [get_process_table] at ih
          rw [ih]
      | err =>
          simp only [get_process_table, List.filter, isOkFetch, List.filterMap]
          simp only [get_process_table] at ih
          rw [ih]

/-- C8: on a PID whose process no longer exists, `kill_process_by_pid` returns
`False` without raising and issues no termination attempt; the second of two
successive calls on the same dead PID (the first call changed nothing) again
returns `False`. -/
theorem kill_dead_pid_idempotent_failure (env : PsEnv) (pid : Nat)
    (force tree : Bool) (h : env.procExists pid = false) :
    kill_process_by_pid_twice env pid force tree = ((false, []), (false, [])) := by
  simp [kill_process_by_pid_twice, kill_process_by_pid, h]

/-- Witness for C8: both calls on dead PID 42 return `False`. -/
theorem kill_dead_pid_idempotent_failure_witness :
    kill_process_by_pid_twice
        (PsEnv.mk (fun _ => false) (fun _ => none) (fun _ => false))
        42 false false = ((false, []), (false, [])) :=
  kill_dead_pid_idempotent_failure
    (PsEnv.mk (fun _ => false) (fun _ => none) (fun _ => false)) 42 false false rfl

/-- The snapshots of the successfully fetched handles, in enumeration order. -/
def okSnapshots (procs : List FetchResult) : List Fields :=
  procs.filterMap fun r =>
    match r with
    | .ok info => some info
    | .err => none

/-- Literal-substring search: the needle occurs somewhere in the haystack. -/
def strContains (hay needle : String) : Bool :=
  decide (needle.toList <:+: hay.toList)

/-- The compiled regex `"svc"` of the claim-C4 scenario under `re.search`
semantics: it matches exactly the strings containing `"svc"`. -/
def svcPattern : Pattern := fun s => strContains s "svc"

/-- Stated from the spec scenario for claim C4: the process name, in string
form, matches the pattern (a missing name matches nothing). -/
def spec_nameMatches (p : Pattern) (info : Fields) : Bool :=
  match get_nested_val info "name" with
  | some v => p v.strForm
  | none => false

/-- Stated from the spec scenario for claim C4: the process `cpu_percent` is a
number strictly greater than 50 (a missing or non-numeric value matches
nothing). -/
def spec_cpuAbove50 (info : Fields) : Bool :=
  match (get_nested_val info "cpu_percent").bind Value.toNum with
  | some v => decide ((50 : Int) < v)
  | none => false

/-- The C4 scenario table equals the AND-filtered projection, for an arbitrary
pattern. -/
theorem table_regex_above_is_and_filter (p : Pattern) (cols : List (String × String))
    (procs : List FetchResult) :
    get_process_table cols [("name", p)] [] [] [("cpu_percent", .vInt 50)] [] [] procs
      = ((okSnapshots procs).filter
          (fun info => spec_nameMatches p info && spec_cpuAbove50 info)).map (rowOf cols) := by
  have hra : ∀ info : Fields,
      check_above info "cpu_percent" (.vInt 50) = spec_cpuAbove50 info := by
    intro info
    unfold check_above spec_cpuAbove50
    cases hc : (get_nested_val info "cpu_percent").bind Value.toNum <;>
      simp [Value.toNum]
  have hpass : ∀ info : Fields,
      (mkValidators [("name", p)] [] [] [("cpu_percent", .vInt 50)] [] []).all
          (fun validate => validate info)
        = (spec_nameMatches p info && spec_cpuAbove50 info) := by
    intro info
    simp only [mkValidators, List.map, List.nil_append, List.append_nil,
      List.singleton_append, List.all_cons, List.all_nil, Bool.and_true]
    rw [hra info]
    rfl
  induction procs with
  | nil => rfl
  | cons head tail ih =>
      cases head with
      | err =>
          simpa only [get_process_table, okSnapshots, List.filterMap] using ih
      | ok info =>
          simp only [get_process_table, okSnapshots, List.filterMap, List.filter] at ih ⊢
          rw [hpass info]
          by_cases hp : (spec_nameMatches p info && spec_cpuAbove50 info) = true
      <;> simp only [hp, cond_true, cond_false, if_true, if_false, Bool.false_eq_true,
            if_neg, List.map] <;> rw [ih]

/-- C4: a process appears as a row only when its snapshot satisfies every
supplied filter entry, the kinds combining with logical AND and unfiltered
attributes unconstrained: with `above_filter` mapping `cpu_percent` to 50 and
`regex_filter` mapping `name` to a pattern, the table is exactly the projection
of the snapshots whose name matches the pattern AND whose `cpu_percent`
strictly exceeds 50; instantiated in particular at the pattern `"svc"`, whose
search semantics is literal containment. -/
theorem filters_combine_with_logical_and (p : Pattern) (cols : List (String × String))
    (procs : List FetchResult) :
    (get_process_table cols [("name", p)] [] [] [("cpu_percent", .vInt 50)] [] [] procs
      = ((okSnapshots procs).filter
          (fun info => spec_nameMatches p info && spec_cpuAbove50 info)).map (rowOf cols)) ∧
    (get_process_table cols [("name", svcPattern)] [] [] [("cpu_percent", .vInt 50)] [] [] procs
      = ((okSnapshots procs).filter
          (fun info =>
            (match get_nested_val info "name" with
              | some v => strContains v.strForm "svc"
              | none => false)
            && spec_cpuAbove50 info)).map (rowOf cols)) :=
  ⟨table_regex_above_is_and_filter p cols procs,
    table_regex_above_is_and_filter svcPattern cols procs⟩

/-- C5: `kill_processes_by_name` matches by exact string equality on the
reported name, case-insensitively when `case_sensitive = False`: of live
processes named `"worker"`, `"Worker"` and `"workers"`, the call with
`"WORKER"` targets exactly the first two (no substring matching) and returns
both their PIDs. -/
theorem kill_by_name_exact_case_insensitive (env : PsEnv) (p1 p2 p3 : Nat)
    (force tree : Bool) :
    kill_processes_by_name env
        [.ok p1 (some "worker"), .ok p2 (some "Worker"), .ok p3 (some "workers")]
        "WORKER" force tree false = [p1, p2] := rfl

/-- C9: every row of `get_process_table` has exactly the caller's requested
column names as keys, with no extras and no omissions; each row is the
projection of the snapshot of a successfully fetched process, and a column
whose dotted path fails to resolve carries the null marker (`none`) instead of
raising. -/
theorem rows_have_exact_requested_columns (cols : List (String × String))
    (regex_filter : List (String × Pattern))
    (equal_filter not_equal_filter above_filter under_filter : List (String × Value))
    (between_filter : List (String × Value × Value)) (procs : List FetchResult)
    (row : List (String × Option Value))
    (hmem : row ∈ get_process_table cols regex_filter equal_filter not_equal_filter
      above_filter under_filter between_filter procs) :
    row.map Prod.fst = cols.map Prod.fst ∧
    ∃ info : Fields, FetchResult.ok info ∈ procs ∧ row = rowOf cols info ∧
      ∀ cp ∈ cols, get_nested_val info cp.2 = none →
        (cp.1, (none : Option Value)) ∈ row := by
  simp only [get_process_table] at hmem
  obtain ⟨r, hr, hgr⟩ := List.mem_filterMap.mp hmem
  cases r with
  | err => simp at hgr
  | ok info =>
      dsimp only at hgr
      by_cases hp : (mkValidators regex_filter equal_filter not_equal_filter
          above_filter under_filter between_filter).all
            (fun validate => validate info) = true
      · rw [if_pos hp] at hgr
        obtain rfl : rowOf cols info = row := Option.some.inj hgr
        refine ⟨?_, info, hr, rfl, ?_⟩
        · simp only [rowOf, List.map_map]
          rfl
        · intro cp hcp hnone
          exact List.mem_map.mpr ⟨cp, hcp, by rw [hnone]⟩
      · rw [if_neg hp] at hgr
        exact absurd hgr (by simp)

/-- Witness for C9: one process whose snapshot has attribute `"a"` but not the
base of the dotted path `"b.c"`; its row has exactly the keys `X` and `Y`, and
`Y` carries the null marker. -/
theorem rows_have_exact_requested_columns_witness :
    (rowOf [("X", "a"), ("Y", "b.c")] (.fcons "a" (.vInt 1) .fnil)).map Prod.fst
        = [("X", "a"), ("Y", "b.c")].map Prod.fst ∧
    ∃ info : Fields,
      FetchResult.ok info ∈ [FetchResult.ok (.fcons "a" (.vInt 1) .fnil)] ∧
      rowOf [("X", "a"), ("Y", "b.c")] (.fcons "a" (.vInt 1) .fnil)
        = rowOf [("X", "a"), ("Y", "b.c")] info ∧
      ∀ cp ∈ [("X", "a"), ("Y", "b.c")], get_nested_val info cp.2 = none →
        (cp.1, (none : Option Value))
          ∈ rowOf [("X", "a"), ("Y", "b.c")] (.fcons "a" (.vInt 1) .fnil) :=
  rows_have_exact_requested_columns [("X", "a"), ("Y", "b.c")] [] [] [] [] [] []
    [.ok (.fcons "a" (.vInt 1) .fnil)]
    (rowOf [("X", "a"), ("Y", "b.c")] (.fcons "a" (.vInt 1) .fnil)) (by decide)

/-- The default range contains exactly the ports `p` with `1024 ≤ p < 49151`. -/
theorem mem_allPortsList (p : Int) : p ∈ allPortsList ↔ 1024 ≤ p ∧ p < 49151 := by
  rw [allPortsList, List.mem_map]
  constructor
  · rintro ⟨i, hi, rfl⟩
    rw [List.mem_range] at hi
    simp only [_PORT_RANGE_START]
    omega
  · rintro ⟨h1, h2⟩
    refine ⟨(p - 1024).toNat, ?_, ?_⟩
    · rw [List.mem_range]
      omega
    · simp only [_PORT_RANGE_START]
      omega

/-- C6: when no free port exists in the default range nor among the supplied
candidates (a busy single port, an exhausted candidate sequence, or no
argument at all), `get_localhost_minimum_free_port` surfaces an explicit
failure naming the scanned bounds instead of returning a value; and the
scanned default range is inclusive-exclusive, exactly the ports `p` with
`1024 ≤ p < 49151`. -/
theorem no_free_port_raises_named_error (free : Int → Bool) (ps : List Int)
    (q : Int) (hall : ∀ p ∈ allPortsList, free p = false)
    (hps : ∀ p ∈ ps, free p = false) (hq : free q = false) :
    (get_localhost_minimum_free_port free none
        = .error "No free ports found in range 1024-49151") ∧
    (get_localhost_minimum_free_port free (some (.inr ps))
        = .error "No free ports found in range 1024-49151") ∧
    (get_localhost_minimum_free_port free (some (.inl q))
        = .error "No free ports found in range 1024-49151") ∧
    (∀ p : Int, p ∈ _ALL_PORTS_RANGE ↔ 1024 ≤ p ∧ p < 49151) := by
  have hscan : scanDefaultRange free
      = .error "No free ports found in range 1024-49151" := by
    have hfind : allPortsList.find? free = none :=
      List.find?_eq_none.mpr (fun x hx => by simp [hall x hx])
    unfold scanDefaultRange
    rw [hfind]
    rfl
  have hfilter : ps.filter free = [] := by
    rw [List.filter_eq_nil_iff]
    intro p hp
    simp [hps p hp]
  refine ⟨hscan, ?_, ?_, ?_⟩
  · simp only [get_localhost_minimum_free_port, hfilter]
    exact hscan
  · simp only [get_localhost_minimum_free_port, hq]
    simpa using hscan
  · intro p
    rw [_ALL_PORTS_RANGE, List.mem_toFinset]
    exact mem_allPortsList p

/-- Witness for C6: with every port busy and empty candidates, each call shape
yields the named error, and the scanned-range characterization holds. -/
theorem no_free_port_raises_named_error_witness :
    (get_localhost_minimum_free_port (fun _ => false) none
        = .error "No free ports found in range 1024-49151") ∧
    (get_localhost_minimum_free_port (fun _ => false) (some (.inr []))
        = .error "No free ports found in range 1024-49151") ∧
    (get_localhost_minimum_free_port (fun _ => false) (some (.inl 80))
        = .error "No free ports found in range 1024-49151") ∧
    (∀ p : Int, p ∈ _ALL_PORTS_RANGE ↔ 1024 ≤ p ∧ p < 49151) :=
  no_free_port_raises_named_error (fun _ => false) [] 80
    (fun _ _ => rfl) (fun _ _ => rfl) rfl

/-- `pyMin a rest` is an element of `a :: rest` and a lower bound of it. -/
theorem pyMin_spec (a : Int) (rest : List Int) :
    (pyMin a rest = a ∨ pyMin a rest ∈ rest) ∧ pyMin a rest ≤ a ∧
      ∀ x ∈ rest, pyMin a rest ≤ x := by
  induction rest generalizing a with
  | nil => simp [pyMin]
  | cons b t ih =>
      have h := ih (min a b)
      have hm : pyMin a (b :: t) = pyMin (min a b) t := rfl
      refine ⟨?_, ?_, ?_⟩
      · rcases h.1 with h1 | h1
        · rcases min_choice a b with hc | hc
          · left
            rw [hm, h1, hc]
          · right
            rw [hm, h1, hc]
            exact List.mem_cons_self b t
        · right
          rw [hm]
          exact List.mem_cons_of_mem b h1
      · rw [hm]
        exact le_trans h.2.1 (min_le_left a b)
      · intro x hx
        rcases List.mem_cons.mp hx with rfl | hx2
        · rw [hm]
          exact le_trans h.2.1 (min_le_right a x)
        · rw [hm]
          exact h.2.2 x hx2

/-- C7: when the candidate sequence contains at least one free port (its free
candidates being `a :: rest`), `get_localhost_minimum_free_port` returns the
minimum free candidate: a free port of the sequence that is at most every free
port of the sequence. -/
theorem minimum_free_candidate_returned (free : Int → Bool) (ps : List Int)
    (a : Int) (rest : List Int) (h : ps.filter free = a :: rest) :
    get_localhost_minimum_free_port free (some (.inr ps)) = .ok (pyMin a rest) ∧
    pyMin a rest ∈ ps ∧ free (pyMin a rest) = true ∧
    ∀ p ∈ ps, free p = true → pyMin a rest ≤ p := by
  have hmem : pyMin a rest ∈ ps.filter free := by
    rw [h]
    rcases (pyMin_spec a rest).1 with h1 | h1
    · rw [h1]
      exact List.mem_cons_self a rest
    · exact List.mem_cons_of_mem a h1
  refine ⟨?_, (List.mem_filter.mp hmem).1, (List.mem_filter.mp hmem).2, ?_⟩
  · simp only [get_localhost_minimum_free_port, h]
  · intro p hp hfp
    have hpf : p ∈ ps.filter free := List.mem_filter.mpr ⟨hp, hfp⟩
    rw [h] at hpf
    rcases List.mem_cons.mp hpf with rfl | hmem2
    · exact (pyMin_spec p rest).2.1
    · exact (pyMin_spec a rest).2.2 p hmem2

/-- Witness for C7: among candidates 80, 8080, 9999 with 80 and 8080 busy and
9999 free, the returned port is 9999. -/
theorem minimum_free_candidate_returned_witness :
    get_localhost_minimum_free_port (fun p => p == 9999)
        (some (.inr [80, 8080, 9999])) = .ok 9999 ∧
    (9999 : Int) ∈ [(80 : Int), 8080, 9999] ∧
    (fun p : Int => p == 9999) 9999 = true ∧
    ∀ p ∈ [(80 : Int), 8080, 9999], (p == 9999) = true → (9999 : Int) ≤ p :=
  minimum_free_candidate_returned (fun p => p == 9999) [80, 8080, 9999] 9999 []
    (by decide)

/-- C10: `get_localhost_free_ports` is exactly the complement of the busy-port
set within the default range — a port is in the result iff `1024 ≤ p < 49151`
and it is not among the localhost busy ports of the same socket snapshot — and
the returned list is duplicate-free and sorted strictly ascending. -/
theorem free_ports_complement_of_busy (conns : List Conn) (p : Int) :
    (p ∈ get_localhost_free_ports conns ↔
      1024 ≤ p ∧ p < 49151 ∧ p ∉ get_localhost_busy_ports conns) ∧
    (get_localhost_free_ports conns).Sorted (· < ·) ∧
    (get_localhost_free_ports conns).Nodup := by
  refine ⟨?_, Finset.sort_sorted_lt _, Finset.sort_nodup _ _⟩
  unfold get_localhost_free_ports _ALL_PORTS_RANGE
  rw [Finset.mem_sort, Finset.mem_sdiff, List.mem_toFinset, mem_allPortsList,
    List.mem_toFinset]
  tauto

end OsnSystemUtils
